import Mathlib

/-!
Verification of the geofenced attendance / task-proximity logic of the
oneprox front-end.

The embedding follows two source files:

* `src/components/attendance/attendance-card.tsx` — the attendance card:
  `getDistanceFromLatLonInMeters`, the nearest-asset selection loop, the
  within-radius check, `loadRadiusDistance`, `handleAbsensi`, and the
  check-in / check-out button `disabled` conditions.
* the complete-task dialog (`src/unnamed/part_000`) — `calculateDistance`
  (haversine with input validation and an `Infinity` sentinel),
  `checkLocation`'s distance validation and comparison, the scan-code
  validation in `onScanSuccess` and `handleSubmit`, `loadRadiusDistance`,
  and the submit button `disabled` predicate.

Modelling conventions:

* JavaScript numbers are modelled by `JSNum` (NaN, ±Infinity, or a finite
  value carried as a rational) where the code inspects NaN/Infinity, and
  by plain `ℚ` where only finite values can occur.
* The transcendental haversine core (`Math.sin`/`cos`/`atan2`/`sqrt`
  composition shared verbatim by `getDistanceFromLatLonInMeters` and the
  interior of `calculateDistance`) is real-valued and is therefore carried
  as an explicit parameter `hav : ℚ → ℚ → ℚ → ℚ → ℚ`; every theorem about
  control flow holds for an arbitrary kernel, which is strictly stronger
  than for the concrete one.
* JavaScript truthiness on numbers is `≠ 0` over ℚ (0 is falsy; NaN is
  not representable in ℚ and is handled by `JSNum` where the code checks
  it); truthiness on strings is `≠ ""`; `undefined`/`null` is `Option`.
-/

/-- JavaScript double as far as the dialog's distance code inspects it:
NaN, +Infinity, -Infinity, or a finite value (as a rational). -/
inductive JSNum where
  | nan : JSNum
  | posInf : JSNum
  | negInf : JSNum
  | fin (q : ℚ) : JSNum
deriving DecidableEq

/-- JavaScript `isNaN` on a `JSNum`. -/
def jsIsNaN : JSNum → Bool
  | .nan => true
  | _ => false

/-- JavaScript `<` on numbers: any comparison involving NaN is false;
-Infinity is below and +Infinity above every finite value. -/
def jsLt : JSNum → JSNum → Bool
  | .nan, _ => false
  | _, .nan => false
  | .posInf, _ => false
  | _, .posInf => true
  | .negInf, .negInf => false
  | .negInf, .fin _ => true
  | .fin _, .negInf => false
  | .fin a, .fin b => decide (a < b)

/-- JavaScript `<=` on numbers: any comparison involving NaN is false. -/
def jsLe : JSNum → JSNum → Bool
  | .nan, _ => false
  | _, .nan => false
  | .negInf, _ => true
  | _, .negInf => false
  | _, .posInf => true
  | .posInf, .fin _ => false
  | .fin a, .fin b => decide (a ≤ b)

/-- `Math.round(x * 100) / 100` — the two-decimal rounding applied at the
end of the dialog's `calculateDistance` (`Math.round` is floor of x+1/2). -/
def round2 (q : ℚ) : ℚ := (⌊q * 100 + 1 / 2⌋ : ℚ) / 100

/-- `calculateDistance(lat1, lon1, lat2, lon2)` from the complete-task
dialog: validates that no input is NaN, that latitudes lie in [-90, 90]
and longitudes in [-180, 180], returning the `Infinity` sentinel on any
violation; otherwise computes the haversine distance (kernel `hav`) and
rounds it to two decimals.  The final catch-all arm is unreachable: a
non-finite, non-NaN input always fails the range checks. -/
def calculateDistance (hav : ℚ → ℚ → ℚ → ℚ → ℚ)
    (lat1 lon1 lat2 lon2 : JSNum) : JSNum :=
  if jsIsNaN lat1 || jsIsNaN lon1 || jsIsNaN lat2 || jsIsNaN lon2 then
    .posInf
  else if jsLt lat1 (.fin (-90)) || jsLt (.fin 90) lat1 ||
          jsLt lat2 (.fin (-90)) || jsLt (.fin 90) lat2 then
    .posInf
  else if jsLt lon1 (.fin (-180)) || jsLt (.fin 180) lon1 ||
          jsLt lon2 (.fin (-180)) || jsLt (.fin 180) lon2 then
    .posInf
  else
    match lat1, lon1, lat2, lon2 with
    | .fin a, .fin b, .fin c, .fin d => .fin (round2 (hav a b c d))
    | _, _, _, _ => .posInf

/-- Outcome of the distance validation and comparison inside the dialog's
`checkLocation` callback. -/
inductive LocationCheck where
  | invalidDistance : LocationCheck
  | valid : LocationCheck
  | tooFar : LocationCheck
deriving DecidableEq

/-- `checkLocation`'s decision on a computed distance: a distance equal to
`Infinity` or NaN is rejected as an invalid calculation; otherwise the
user is valid iff `distance <= maxDistance`. -/
def checkLocationVerdict (distance : JSNum) (maxDistance : ℚ) : LocationCheck :=
  if distance = .posInf || jsIsNaN distance then .invalidDistance
  else if jsLe distance (.fin maxDistance) then .valid
  else .tooFar

/-- Validity of an input quadruple exactly as `calculateDistance` checks
it: no component NaN, both latitudes in [-90, 90] and both longitudes in
[-180, 180] (an infinite component fails the range checks). -/
def coordPairUsable (lat1 lon1 lat2 lon2 : JSNum) : Bool :=
  !(jsIsNaN lat1 || jsIsNaN lon1 || jsIsNaN lat2 || jsIsNaN lon2) &&
  !(jsLt lat1 (.fin (-90)) || jsLt (.fin 90) lat1 ||
    jsLt lat2 (.fin (-90)) || jsLt (.fin 90) lat2) &&
  !(jsLt lon1 (.fin (-180)) || jsLt (.fin 180) lon1 ||
    jsLt lon2 (.fin (-180)) || jsLt (.fin 180) lon2)

/-- C1 (counterexample): `calculateDistance({91,0},{0,0})` does not fail
with an `InvalidCoordinate` error — it returns the numeric sentinel
`Infinity` (the function's type has no error outcome at all). -/
theorem c1_distance_91_returns_infinity :
    calculateDistance (fun _ _ _ _ => 0) (.fin 91) (.fin 0) (.fin 0) (.fin 0)
      = JSNum.posInf := by decide

/-- C1 (amended): for every kernel and every input pair with an
out-of-range or NaN component, `calculateDistance` returns the `Infinity`
sentinel, and `checkLocation` then rejects that value as an invalid
distance calculation instead of using it as a numeric verdict. -/
theorem c1_invalid_coordinate_infinity_rejected
    (hav : ℚ → ℚ → ℚ → ℚ → ℚ) (lat1 lon1 lat2 lon2 : JSNum) (r : ℚ)
    (h : coordPairUsable lat1 lon1 lat2 lon2 = false) :
    calculateDistance hav lat1 lon1 lat2 lon2 = JSNum.posInf ∧
    checkLocationVerdict (calculateDistance hav lat1 lon1 lat2 lon2) r
      = LocationCheck.invalidDistance := by
  have hinf : calculateDistance hav lat1 lon1 lat2 lon2 = JSNum.posInf := by
    unfold calculateDistance
    split
    · rfl
    · split
      · rfl
      · split
        · rfl
        · rename_i h1 h2 h3
          have e1 : (jsIsNaN lat1 || jsIsNaN lon1 || jsIsNaN lat2 || jsIsNaN lon2)
              = false := by
            revert h1
            cases jsIsNaN lat1 || jsIsNaN lon1 || jsIsNaN lat2 || jsIsNaN lon2 <;> simp
          have e2 : (jsLt lat1 (.fin (-90)) || jsLt (.fin 90) lat1 ||
              jsLt lat2 (.fin (-90)) || jsLt (.fin 90) lat2) = false := by
            revert h2
            cases jsLt lat1 (.fin (-90)) || jsLt (.fin 90) lat1 ||
              jsLt lat2 (.fin (-90)) || jsLt (.fin 90) lat2 <;> simp
          have e3 : (jsLt lon1 (.fin (-180)) || jsLt (.fin 180) lon1 ||
              jsLt lon2 (.fin (-180)) || jsLt (.fin 180) lon2) = false := by
            revert h3
            cases jsLt lon1 (.fin (-180)) || jsLt (.fin 180) lon1 ||
              jsLt lon2 (.fin (-180)) || jsLt (.fin 180) lon2 <;> simp
          rw [coordPairUsable, e1, e2, e3] at h
          simp at h
  refine ⟨hinf, ?_⟩
  rw [hinf]
  rfl

/-- C1 (witness): the amended statement at the concrete pair (91,0)/(0,0). -/
theorem c1_invalid_coordinate_infinity_rejected_witness :
    calculateDistance (fun _ _ _ _ => 0) (.fin 91) (.fin 0) (.fin 0) (.fin 0)
      = JSNum.posInf ∧
    checkLocationVerdict
      (calculateDistance (fun _ _ _ _ => 0) (.fin 91) (.fin 0) (.fin 0) (.fin 0)) 100
      = LocationCheck.invalidDistance :=
  c1_invalid_coordinate_infinity_rejected (fun _ _ _ _ => 0)
    (.fin 91) (.fin 0) (.fin 0) (.fin 0) 100 (by decide)

/-! ## Proximity session: the nearest-asset loop of the attendance card -/

/-- An asset as mapped for the attendance card: id, name and coordinates.
The card's loop reads `asset.lat` / `asset.lng` (the fallback field names
`latitude` / `latitude_coordinate` are never populated by the mapping). -/
structure Asset where
  id : String
  name : String
  lat : ℚ
  lng : ℚ
deriving DecidableEq

/-- The within-radius comparison of the attendance card:
`nearestDistance <= radiusDistance` (inclusive), line-for-line the same
comparison as `distance <= maxDistance` in the dialog's `checkLocation`. -/
def isWithin (d radiusDistance : ℚ) : Bool := decide (d ≤ radiusDistance)

/-- One iteration of the attendance card's nearest-asset `for` loop.
JavaScript skips an asset when `!assetLat || !assetLng` — numeric
falsiness, which over ℚ is equality with 0 — and otherwise replaces the
running minimum exactly when `dist < nearestDistance` (strict, so the
earliest asset wins ties); an accumulator of `none` stands for the
initial `nearestDistance = Infinity`, below which every distance lies. -/
def nearestStep (hav : ℚ → ℚ → ℚ → ℚ → ℚ) (loc : ℚ × ℚ)
    (acc : Option Asset × Option ℚ) (asset : Asset) : Option Asset × Option ℚ :=
  if asset.lat = 0 ∨ asset.lng = 0 then acc
  else
    let dist := hav loc.1 loc.2 asset.lat asset.lng
    match acc with
    | (_, none) => (some asset, some dist)
    | (_, some nearestDistance) =>
        if dist < nearestDistance then (some asset, some dist) else acc

/-- The whole nearest-asset loop: running `(nearest, nearestDistance)`
over the asset list, starting from `(null, Infinity)`. -/
def findNearest (hav : ℚ → ℚ → ℚ → ℚ → ℚ) (loc : ℚ × ℚ)
    (assets : List Asset) : Option Asset × Option ℚ :=
  assets.foldl (nearestStep hav loc) (none, none)

/-- The three pieces of state the attendance card derives from one pass
of the loop: `nearestAsset` (id and name), `currentDistance`,
`isNearAsset`. -/
structure ProximityVerdict where
  nearestAsset : Option (String × String)
  currentDistance : Option ℚ
  isNearAsset : Bool
deriving DecidableEq

/-- The proximity evaluation of the attendance card (the effect of the
location/assets/radius effect hook on the three derived states): on an
empty asset list or when the loop found nothing, all three are cleared;
otherwise `currentDistance` and `isNearAsset` are set from the nearest
distance, and `nearestAsset` is set when the winning asset's id is truthy
(a non-empty string), cleared otherwise. -/
def evaluate (hav : ℚ → ℚ → ℚ → ℚ → ℚ) (loc : ℚ × ℚ)
    (assets : List Asset) (radiusDistance : ℚ) : ProximityVerdict :=
  if assets.isEmpty then ⟨none, none, false⟩
  else
    match findNearest hav loc assets with
    | (some nearest, some nearestDistance) =>
        let withinRadius := isWithin nearestDistance radiusDistance
        let nearestAsset :=
          if nearest.id = "" then none else some (nearest.id, nearest.name)
        ⟨nearestAsset, some nearestDistance, withinRadius⟩
    | _ => ⟨none, none, false⟩

/-- C4: the radius policy boundary is inclusive — `isWithin d r` is true
iff `d ≤ r`; at `allowedMeters = 100` a distance of exactly 100 is
within and 100.0000001 is not; and the dialog's `checkLocation` applies
the same inclusive comparison to a finite distance. -/
theorem c4_within_radius_inclusive_boundary :
    (∀ d r : ℚ, isWithin d r = true ↔ d ≤ r) ∧
    isWithin 100 100 = true ∧
    isWithin (1000000001 / 10000000 : ℚ) 100 = false ∧
    (∀ d r : ℚ, checkLocationVerdict (.fin d) r = .valid ↔ d ≤ r) := by
  refine ⟨fun d r => by simp [isWithin], by simp [isWithin],
    by simp [isWithin]; norm_num, fun d r => ?_⟩
  simp only [checkLocationVerdict, jsIsNaN, jsLe]
  constructor
  · intro h
    by_contra hlt
    simp [decide_eq_true_iff, hlt] at h
  · intro h
    simp [decide_eq_true_iff, h]

/-- C7: evaluating proximity with an empty target list yields the empty
verdict: no nearest asset, no distance, not within radius. -/
theorem c7_empty_targets_empty_verdict
    (hav : ℚ → ℚ → ℚ → ℚ → ℚ) (loc : ℚ × ℚ) (radiusDistance : ℚ) :
    evaluate hav loc [] radiusDistance
      = ProximityVerdict.mk none none false := rfl

/-! ## Nearest-target selection: minimality and stable tie-break -/

/-- Specification-side selection function, transcribed from the spec's
words for the refinement claim about the loop: compute the distance to
every target, select the minimum, ties (equal minimal distance) broken
by first occurrence in the input sequence. -/
def selectNearest (hav : ℚ → ℚ → ℚ → ℚ → ℚ) (loc : ℚ × ℚ) :
    List Asset → Option (Asset × ℚ)
  | [] => none
  | a :: rest =>
    let d := hav loc.1 loc.2 a.lat a.lng
    match selectNearest hav loc rest with
    | none => some (a, d)
    | some (b, db) => if d ≤ db then some (a, d) else some (b, db)

/-- Running the loop body over a list from an already-populated
accumulator replaces it exactly when the list's first minimal distance
is strictly below the accumulated one. -/
lemma foldl_nearestStep_seeded (hav : ℚ → ℚ → ℚ → ℚ → ℚ) (loc : ℚ × ℚ)
    (l : List Asset) :
    ∀ (b : Asset) (db : ℚ), (∀ a ∈ l, a.lat ≠ 0 ∧ a.lng ≠ 0) →
    l.foldl (nearestStep hav loc) (some b, some db) =
      (match selectNearest hav loc l with
       | none => (some b, some db)
       | some (c, dc) =>
           if dc < db then (some c, some dc) else (some b, some db)) := by
  induction l with
  | nil => intro b db _; rfl
  | cons a rest ih =>
    intro b db hl
    have ha := hl a (List.mem_cons_self a rest)
    have hrest : ∀ x ∈ rest, x.lat ≠ 0 ∧ x.lng ≠ 0 :=
      fun x hx => hl x (List.mem_cons_of_mem a hx)
    have hskip : ¬ (a.lat = 0 ∨ a.lng = 0) := by
      rintro (h0 | h0)
      · exact ha.1 h0
      · exact ha.2 h0
    have hstep : nearestStep hav loc (some b, some db) a =
        if hav loc.1 loc.2 a.lat a.lng < db
        then (some a, some (hav loc.1 loc.2 a.lat a.lng))
        else (some b, some db) := by
      simp only [nearestStep, if_neg hskip]
    have hsel : selectNearest hav loc (a :: rest) =
        (match selectNearest hav loc rest with
         | none => some (a, hav loc.1 loc.2 a.lat a.lng)
         | some (c, dc) =>
             if hav loc.1 loc.2 a.lat a.lng ≤ dc
             then some (a, hav loc.1 loc.2 a.lat a.lng)
             else some (c, dc)) := rfl
    rw [List.foldl_cons, hstep, hsel]
    by_cases hlt : hav loc.1 loc.2 a.lat a.lng < db
    · rw [if_pos hlt, ih a (hav loc.1 loc.2 a.lat a.lng) hrest]
      rcases hres : selectNearest hav loc rest with _ | ⟨c, dc⟩
      · simp only [if_pos hlt]
      · dsimp only
        split_ifs with h1 h2 h3 <;>
          first
            | rfl
            | (exfalso; linarith)
            | (dsimp only; split_ifs <;> first | rfl | (exfalso; linarith))
    · rw [if_neg hlt, ih b db hrest]
      rcases hres : selectNearest hav loc rest with _ | ⟨c, dc⟩
      · simp only [if_neg hlt]
      · dsimp only
        split_ifs with h1 h2 h3 <;>
          first
            | rfl
            | (exfalso; linarith)
            | (dsimp only; split_ifs <;> first | rfl | (exfalso; linarith))

/-- The attendance loop computes exactly the spec-side selection when no
asset is skipped. -/
lemma findNearest_matches_selectNearest (hav : ℚ → ℚ → ℚ → ℚ → ℚ)
    (loc : ℚ × ℚ) (assets : List Asset)
    (huse : ∀ a ∈ assets, a.lat ≠ 0 ∧ a.lng ≠ 0) :
    findNearest hav loc assets =
      (match selectNearest hav loc assets with
       | none => (none, none)
       | some (c, dc) => (some c, some dc)) := by
  cases assets with
  | nil => rfl
  | cons a rest =>
    have ha := huse a (List.mem_cons_self a rest)
    have hrest : ∀ x ∈ rest, x.lat ≠ 0 ∧ x.lng ≠ 0 :=
      fun x hx => huse x (List.mem_cons_of_mem a hx)
    have hskip : ¬ (a.lat = 0 ∨ a.lng = 0) := by
      rintro (h0 | h0)
      · exact ha.1 h0
      · exact ha.2 h0
    have hstep : nearestStep hav loc (none, none) a =
        (some a, some (hav loc.1 loc.2 a.lat a.lng)) := by
      simp only [nearestStep, if_neg hskip]
    have hsel : selectNearest hav loc (a :: rest) =
        (match selectNearest hav loc rest with
         | none => some (a, hav loc.1 loc.2 a.lat a.lng)
         | some (c, dc) =>
             if hav loc.1 loc.2 a.lat a.lng ≤ dc
             then some (a, hav loc.1 loc.2 a.lat a.lng)
             else some (c, dc)) := rfl
    rw [findNearest, List.foldl_cons, hstep,
      foldl_nearestStep_seeded hav loc rest a (hav loc.1 loc.2 a.lat a.lng) hrest,
      hsel]
    rcases hres : selectNearest hav loc rest with _ | ⟨c, dc⟩
    · rfl
    · dsimp only
      split_ifs with h1 h2 h3 <;>
        first
          | rfl
          | (exfalso; linarith)
          | (dsimp only; split_ifs <;> first | rfl | (exfalso; linarith))

/-- A selected pair is a member with its own distance, minimal over the
whole list. -/
lemma selectNearest_mem_min (hav : ℚ → ℚ → ℚ → ℚ → ℚ) (loc : ℚ × ℚ)
    (l : List Asset) :
    ∀ c dc, selectNearest hav loc l = some (c, dc) →
      c ∈ l ∧ dc = hav loc.1 loc.2 c.lat c.lng ∧
      ∀ a ∈ l, dc ≤ hav loc.1 loc.2 a.lat a.lng := by
  induction l with
  | nil => intro c dc h; exact absurd h (by simp [selectNearest])
  | cons a rest ih =>
    intro c dc h
    rw [show selectNearest hav loc (a :: rest) =
        (match selectNearest hav loc rest with
         | none => some (a, hav loc.1 loc.2 a.lat a.lng)
         | some (b, db) =>
             if hav loc.1 loc.2 a.lat a.lng ≤ db
             then some (a, hav loc.1 loc.2 a.lat a.lng)
             else some (b, db)) from rfl] at h
    rcases hres : selectNearest hav loc rest with _ | ⟨b, db⟩
    · rw [hres] at h
      simp only [Option.some.injEq, Prod.mk.injEq] at h
      obtain ⟨hc, hd⟩ := h
      subst hc; subst hd
      refine ⟨List.mem_cons_self a rest, rfl, ?_⟩
      intro x hx
      rcases List.mem_cons.mp hx with hx | hx
      · subst hx; exact le_refl _
      · exfalso
        obtain ⟨y, dy, hy⟩ : ∃ y dy, selectNearest hav loc rest = some (y, dy) := by
          cases rest with
          | nil => exact absurd hx (List.not_mem_nil x)
          | cons z zs =>
            rw [show selectNearest hav loc (z :: zs) =
                (match selectNearest hav loc zs with
                 | none => some (z, hav loc.1 loc.2 z.lat z.lng)
                 | some (w, dw) =>
                     if hav loc.1 loc.2 z.lat z.lng ≤ dw
                     then some (z, hav loc.1 loc.2 z.lat z.lng)
                     else some (w, dw)) from rfl]
            rcases selectNearest hav loc zs with _ | ⟨w, dw⟩
            · exact ⟨z, _, rfl⟩
            · by_cases hz : hav loc.1 loc.2 z.lat z.lng ≤ dw
              · exact ⟨z, _, by dsimp only; rw [if_pos hz]⟩
              · exact ⟨w, dw, by dsimp only; rw [if_neg hz]⟩
        rw [hres] at hy
        exact Option.noConfusion hy
    · rw [hres] at h
      obtain ⟨hb, hdb, hminb⟩ := ih b db hres
      by_cases hle : hav loc.1 loc.2 a.lat a.lng ≤ db
      · dsimp only at h
        rw [if_pos hle] at h
        simp only [Option.some.injEq, Prod.mk.injEq] at h
        obtain ⟨hc, hd⟩ := h
        subst hc; subst hd
        refine ⟨List.mem_cons_self a rest, rfl, ?_⟩
        intro x hx
        rcases List.mem_cons.mp hx with hx | hx
        · subst hx; exact le_refl _
        · exact le_trans hle (hdb ▸ hminb x hx)
      · dsimp only at h
        rw [if_neg hle] at h
        simp only [Option.some.injEq, Prod.mk.injEq] at h
        obtain ⟨hc, hd⟩ := h
        subst hc; subst hd
        refine ⟨List.mem_cons_of_mem a hb, hdb, ?_⟩
        intro x hx
        rcases List.mem_cons.mp hx with hx | hx
        · subst hx; linarith [hminb]
        · exact hminb x hx

/-- The selected target is the first occurrence of the minimal distance:
every strictly earlier list position has a strictly larger distance. -/
lemma selectNearest_first_occurrence (hav : ℚ → ℚ → ℚ → ℚ → ℚ)
    (loc : ℚ × ℚ) (l : List Asset) :
    ∀ c dc, selectNearest hav loc l = some (c, dc) →
      ∃ (i : ℕ) (hi : i < l.length), l.get ⟨i, hi⟩ = c ∧
        ∀ j (hj : j < i),
          dc < hav loc.1 loc.2 (l.get ⟨j, Nat.lt_trans hj hi⟩).lat
            (l.get ⟨j, Nat.lt_trans hj hi⟩).lng := by
  induction l with
  | nil => intro c dc h; exact absurd h (by simp [selectNearest])
  | cons a rest ih =>
    intro c dc h
    rw [show selectNearest hav loc (a :: rest) =
        (match selectNearest hav loc rest with
         | none => some (a, hav loc.1 loc.2 a.lat a.lng)
         | some (b, db) =>
             if hav loc.1 loc.2 a.lat a.lng ≤ db
             then some (a, hav loc.1 loc.2 a.lat a.lng)
             else some (b, db)) from rfl] at h
    rcases hres : selectNearest hav loc rest with _ | ⟨b, db⟩
    · rw [hres] at h
      simp only [Option.some.injEq, Prod.mk.injEq] at h
      obtain ⟨hc, _⟩ := h
      subst hc
      exact ⟨0, Nat.succ_pos _, rfl, fun j hj => absurd hj (Nat.not_lt_zero j)⟩
    · rw [hres] at h
      dsimp only at h
      by_cases hle : hav loc.1 loc.2 a.lat a.lng ≤ db
      · rw [if_pos hle] at h
        simp only [Option.some.injEq, Prod.mk.injEq] at h
        obtain ⟨hc, _⟩ := h
        subst hc
        exact ⟨0, Nat.succ_pos _, rfl, fun j hj => absurd hj (Nat.not_lt_zero j)⟩
      · rw [if_neg hle] at h
        simp only [Option.some.injEq, Prod.mk.injEq] at h
        obtain ⟨hc, hd⟩ := h
        obtain ⟨i, hi, hget, hfirst⟩ := ih b db hres
        refine ⟨i + 1, Nat.succ_lt_succ hi, show rest.get ⟨i, hi⟩ = c from hc ▸ hget, ?_⟩
        intro j hj
        cases j with
        | zero =>
            show dc < hav loc.1 loc.2 a.lat a.lng
            push_neg at hle
            linarith [hle, hd]
        | succ k =>
            exact hd ▸ hfirst k (Nat.lt_of_succ_lt_succ hj)

/-- C5: with a non-empty target list in which every target has usable
(non-falsy) coordinates, the evaluation agrees with the spec-side
selection: the chosen target is a member realising the minimal distance,
it is the first occurrence of that minimal distance (every strictly
earlier target is strictly farther), and the verdict is built from it. -/
theorem c5_nearest_selection_stable
    (hav : ℚ → ℚ → ℚ → ℚ → ℚ) (loc : ℚ × ℚ) (radiusDistance : ℚ)
    (assets : List Asset) (hne : assets ≠ [])
    (huse : ∀ a ∈ assets, a.lat ≠ 0 ∧ a.lng ≠ 0) :
    ∃ c dc, selectNearest hav loc assets = some (c, dc) ∧
      c ∈ assets ∧ dc = hav loc.1 loc.2 c.lat c.lng ∧
      (∀ a ∈ assets, dc ≤ hav loc.1 loc.2 a.lat a.lng) ∧
      (∃ (i : ℕ) (hi : i < assets.length), assets.get ⟨i, hi⟩ = c ∧
        ∀ j (hj : j < i),
          dc < hav loc.1 loc.2 (assets.get ⟨j, Nat.lt_trans hj hi⟩).lat
            (assets.get ⟨j, Nat.lt_trans hj hi⟩).lng) ∧
      evaluate hav loc assets radiusDistance =
        ⟨if c.id = "" then none else some (c.id, c.name),
         some dc, isWithin dc radiusDistance⟩ := by
  obtain ⟨c, dc, hsel⟩ : ∃ c dc, selectNearest hav loc assets = some (c, dc) := by
    cases assets with
    | nil => exact absurd rfl hne
    | cons a rest =>
      rw [show selectNearest hav loc (a :: rest) =
          (match selectNearest hav loc rest with
           | none => some (a, hav loc.1 loc.2 a.lat a.lng)
           | some (b, db) =>
               if hav loc.1 loc.2 a.lat a.lng ≤ db
               then some (a, hav loc.1 loc.2 a.lat a.lng)
               else some (b, db)) from rfl]
      rcases selectNearest hav loc rest with _ | ⟨b, db⟩
      · exact ⟨a, _, rfl⟩
      · dsimp only
        by_cases hle : hav loc.1 loc.2 a.lat a.lng ≤ db
        · exact ⟨a, _, by rw [if_pos hle]⟩
        · exact ⟨b, db, by rw [if_neg hle]⟩
  obtain ⟨hmem, hdist, hmin⟩ := selectNearest_mem_min hav loc assets c dc hsel
  obtain ⟨i, hi, hget, hfirst⟩ :=
    selectNearest_first_occurrence hav loc assets c dc hsel
  have hne' : assets.isEmpty = false := by
    cases assets with
    | nil => exact absurd rfl hne
    | cons a rest => rfl
  have hfn := findNearest_matches_selectNearest hav loc assets huse
  rw [hsel] at hfn
  dsimp only at hfn
  refine ⟨c, dc, hsel, hmem, hdist, hmin, ⟨i, hi, hget, hfirst⟩, ?_⟩
  simp only [evaluate, hne', Bool.false_eq_true, if_false, hfn]

/-- C5 (witness): two targets at distances 200 and 50 — the evaluation
picks the second, nearer one, with the full minimality and stability
facts instantiated. -/
theorem c5_nearest_selection_stable_witness :
    (([⟨"A", "Asset A", 200, 1⟩, ⟨"B", "Asset B", 50, 1⟩] : List Asset) ≠ []) ∧
    (∀ a ∈ ([⟨"A", "Asset A", 200, 1⟩, ⟨"B", "Asset B", 50, 1⟩] : List Asset),
      a.lat ≠ 0 ∧ a.lng ≠ 0) ∧
    (∃ c dc, selectNearest (fun _ _ la _ => la) (0, 0)
        [⟨"A", "Asset A", 200, 1⟩, ⟨"B", "Asset B", 50, 1⟩] = some (c, dc) ∧
      c ∈ ([⟨"A", "Asset A", 200, 1⟩, ⟨"B", "Asset B", 50, 1⟩] : List Asset) ∧
      dc = (fun _ _ la _ => la : ℚ → ℚ → ℚ → ℚ → ℚ) (0 : ℚ) (0 : ℚ) c.lat c.lng ∧
      (∀ a ∈ ([⟨"A", "Asset A", 200, 1⟩, ⟨"B", "Asset B", 50, 1⟩] : List Asset),
        dc ≤ (fun _ _ la _ => la : ℚ → ℚ → ℚ → ℚ → ℚ) (0 : ℚ) (0 : ℚ) a.lat a.lng) ∧
      (∃ (i : ℕ)
        (hi : i < ([⟨"A", "Asset A", 200, 1⟩, ⟨"B", "Asset B", 50, 1⟩] : List Asset).length),
        ([⟨"A", "Asset A", 200, 1⟩, ⟨"B", "Asset B", 50, 1⟩] : List Asset).get ⟨i, hi⟩ = c ∧
        ∀ j (hj : j < i),
          dc < (fun _ _ la _ => la : ℚ → ℚ → ℚ → ℚ → ℚ) (0 : ℚ) (0 : ℚ)
            (([⟨"A", "Asset A", 200, 1⟩, ⟨"B", "Asset B", 50, 1⟩] : List Asset).get
              ⟨j, Nat.lt_trans hj hi⟩).lat
            (([⟨"A", "Asset A", 200, 1⟩, ⟨"B", "Asset B", 50, 1⟩] : List Asset).get
              ⟨j, Nat.lt_trans hj hi⟩).lng) ∧
      evaluate (fun _ _ la _ => la) (0, 0)
          [⟨"A", "Asset A", 200, 1⟩, ⟨"B", "Asset B", 50, 1⟩] 100 =
        ⟨if c.id = "" then none else some (c.id, c.name),
         some dc, isWithin dc 100⟩) :=
  ⟨by decide, by decide,
    c5_nearest_selection_stable (fun _ _ la _ => la) (0, 0) 100
      [⟨"A", "Asset A", 200, 1⟩, ⟨"B", "Asset B", 50, 1⟩]
      (by decide) (by decide)⟩

/-- The loop leaves the accumulator untouched when every asset in the
list has a falsy latitude or longitude. -/
lemma foldl_nearestStep_all_skipped (hav : ℚ → ℚ → ℚ → ℚ → ℚ)
    (loc : ℚ × ℚ) (l : List Asset) :
    ∀ acc, (∀ a ∈ l, a.lat = 0 ∨ a.lng = 0) →
      l.foldl (nearestStep hav loc) acc = acc := by
  induction l with
  | nil => intro acc _; rfl
  | cons a rest ih =>
    intro acc hl
    have ha := hl a (List.mem_cons_self a rest)
    rw [List.foldl_cons,
      show nearestStep hav loc acc a = acc from by simp only [nearestStep, if_pos ha]]
    exact ih acc (fun x hx => hl x (List.mem_cons_of_mem a hx))

/-- C6 (counterexample): a target with the out-of-range latitude 91 is
not skipped by the nearest-target selection — it is selected and produces
a normal verdict instead of the empty-case verdict the claim requires
when every target is unusable. -/
theorem c6_out_of_range_target_selected :
    evaluate (fun _ _ _ _ => 7) (0, 0) [⟨"A1", "Tower", 91, 10⟩] 100
      = ⟨some ("A1", "Tower"), some 7, true⟩ ∧
    evaluate (fun _ _ _ _ => 7) (0, 0) [⟨"A1", "Tower", 91, 10⟩] 100
      ≠ ⟨none, none, false⟩ := by decide

/-- C6 (amended): the loop skips a target exactly when a coordinate field
is falsy (zero — which also wrongly skips valid equator/prime-meridian
coordinates); it performs no range or finiteness validation, so a target
with a finite out-of-range coordinate participates with its computed
distance; and when every target is skipped the evaluation behaves exactly
as the empty case. -/
theorem c6_falsy_skip_no_range_validation :
    (∀ (hav : ℚ → ℚ → ℚ → ℚ → ℚ) (loc : ℚ × ℚ) (radiusDistance : ℚ)
        (assets : List Asset), (∀ a ∈ assets, a.lat = 0 ∨ a.lng = 0) →
        evaluate hav loc assets radiusDistance = ⟨none, none, false⟩) ∧
    (∀ (hav : ℚ → ℚ → ℚ → ℚ → ℚ) (loc : ℚ × ℚ) (radiusDistance : ℚ)
        (t : Asset), t.lat ≠ 0 → t.lng ≠ 0 →
        evaluate hav loc [t] radiusDistance =
          ⟨if t.id = "" then none else some (t.id, t.name),
           some (hav loc.1 loc.2 t.lat t.lng),
           isWithin (hav loc.1 loc.2 t.lat t.lng) radiusDistance⟩) := by
  constructor
  · intro hav loc radiusDistance assets hl
    cases assets with
    | nil => rfl
    | cons a rest =>
      have hfn : findNearest hav loc (a :: rest) = (none, none) :=
        foldl_nearestStep_all_skipped hav loc (a :: rest) (none, none) hl
      simp only [evaluate, List.isEmpty_cons, Bool.false_eq_true, if_false, hfn]
  · intro hav loc radiusDistance t hlat hlng
    have hskip : ¬ (t.lat = 0 ∨ t.lng = 0) := by
      rintro (h0 | h0)
      · exact hlat h0
      · exact hlng h0
    have hfn : findNearest hav loc [t]
        = (some t, some (hav loc.1 loc.2 t.lat t.lng)) := by
      simp only [findNearest, List.foldl_cons, List.foldl_nil, nearestStep,
        if_neg hskip]
    simp only [evaluate, List.isEmpty_cons, Bool.false_eq_true, if_false, hfn]

/-- C6 (witness): the amended statement at concrete inputs — a target on
the equator (latitude 0) is skipped and yields the empty verdict; a
target with non-zero coordinates yields a populated verdict. -/
theorem c6_falsy_skip_no_range_validation_witness :
    evaluate (fun _ _ _ _ => 7) (3, 4) [⟨"Z", "Zero", 0, 5⟩] 100
      = ⟨none, none, false⟩ ∧
    evaluate (fun _ _ _ _ => 7) (3, 4) [⟨"T", "T9", 3, 4⟩] 100
      = ⟨if ("T" : String) = "" then none else some ("T", "T9"),
         some 7, isWithin 7 100⟩ :=
  ⟨c6_falsy_skip_no_range_validation.1 (fun _ _ _ _ => 7) (3, 4) 100
      [⟨"Z", "Zero", 0, 5⟩] (by decide),
   c6_falsy_skip_no_range_validation.2 (fun _ _ _ _ => 7) (3, 4) 100
      ⟨"T", "T9", 3, 4⟩ (by decide) (by decide)⟩

/-! ## Action gate: attendance card state, handleAbsensi, button gating -/

/-- Today's attendance flags as the card stores them
(`todayAttendanceStatus`). -/
structure TodayStatus where
  hasCheckedIn : Bool
  hasCheckedOut : Bool
deriving DecidableEq

/-- The card's `attendanceStatus` state: `null`, `"success"` or
`"error"`. -/
inductive AStatus where
  | idle : AStatus
  | success : AStatus
  | error : AStatus
deriving DecidableEq

/-- `todayAttendanceStatus?.hasCheckedIn` — optional chaining yields
`undefined` (falsy) when the status has not been loaded. -/
def hasCheckedInB (t : Option TodayStatus) : Bool :=
  (t.map TodayStatus.hasCheckedIn).getD false

/-- `todayAttendanceStatus?.hasCheckedOut` with the same optional
chaining. -/
def hasCheckedOutB (t : Option TodayStatus) : Bool :=
  (t.map TodayStatus.hasCheckedOut).getD false

/-- The Check In button's `disabled` condition:
`attendanceStatus === "success" || (hasCheckedIn && !hasCheckedOut)`. -/
def checkInDisabled (attendanceStatus : AStatus) (today : Option TodayStatus) : Bool :=
  decide (attendanceStatus = AStatus.success) ||
  (hasCheckedInB today && !hasCheckedOutB today)

/-- The Check Out button's `disabled` condition:
`attendanceStatus === "success" || !hasCheckedIn || hasCheckedOut`. -/
def checkOutDisabled (attendanceStatus : AStatus) (today : Option TodayStatus) : Bool :=
  decide (attendanceStatus = AStatus.success) ||
  !hasCheckedInB today || hasCheckedOutB today

/-- An external attendance API invocation issued by `handleAbsensi`. -/
inductive ApiCall where
  | checkIn (assetId : String) (lat lng : ℚ) : ApiCall
  | checkOut (assetId : String) (lat lng : ℚ) : ApiCall
deriving DecidableEq

/-- How the awaited API call resolves: a response with a success flag, or
a thrown exception (network failure) caught by the surrounding catch. -/
inductive ApiOutcome where
  | ok (success : Bool) : ApiOutcome
  | exn : ApiOutcome
deriving DecidableEq

/-- The record `handleAbsensi` serialises into
`localStorage['lastAttendance']`. -/
structure AttendanceRecord where
  timestamp : String
  assetId : String
  assetName : String
  lat : ℚ
  lng : ℚ
deriving DecidableEq

/-- The component state `handleAbsensi` reads and writes. -/
structure CardState where
  nearestAsset : Option (String × String)
  location : Option (ℚ × ℚ)
  todayAttendanceStatus : Option TodayStatus
  attendanceStatus : AStatus
  lastAttendance : Option AttendanceRecord
deriving DecidableEq

/-- `handleAbsensi` as a pure transition: given the clock reading used
for the record's timestamp and how the awaited API call resolves, it
returns the updated state and the list of external API invocations
issued.  Faithful to the source: early return when no nearest asset or
location; error status on a falsy asset id; check-out when
`hasCheckedIn && !hasCheckedOut`, otherwise check-in; status from the
response's success flag; the `lastAttendance` record written after the
call on both response outcomes, but skipped when the call throws (the
catch only sets the error status).  There is no busy flag and no
re-entrancy rejection. -/
def handleAbsensi (now : String) (outcome : ApiOutcome) (s : CardState) :
    CardState × List ApiCall :=
  match s.nearestAsset, s.location with
  | none, _ => (s, [])
  | some _, none => (s, [])
  | some (assetId, assetName), some (lat, lng) =>
    if assetId = "" then ({ s with attendanceStatus := .error }, [])
    else
      let call :=
        if hasCheckedInB s.todayAttendanceStatus &&
           !hasCheckedOutB s.todayAttendanceStatus
        then ApiCall.checkOut assetId lat lng
        else ApiCall.checkIn assetId lat lng
      match outcome with
      | .exn => ({ s with attendanceStatus := .error }, [call])
      | .ok success =>
          ({ s with
              attendanceStatus := if success then .success else .error,
              lastAttendance := some ⟨now, assetId, assetName, lat, lng⟩ },
           [call])

/-- C3 (counterexample): with `hasCheckedIn = true` and
`hasCheckedOut = true` the Check In button is enabled again and
`handleAbsensi` issues a fresh check-in API call — `CheckedOut` is not a
terminal state for the day. -/
theorem c3_checked_out_not_terminal :
    checkInDisabled AStatus.idle (some ⟨true, true⟩) = false ∧
    (handleAbsensi "t" (ApiOutcome.ok true)
        ⟨some ("A1", "Gate"), some (1, 2), some ⟨true, true⟩,
         AStatus.idle, none⟩).2
      = [ApiCall.checkIn "A1" 1 2] := by decide

/-- C3 (amended): outside the transient success flash, check-out is
permitted exactly in the `CheckedIn` state (`hasCheckedIn` and not
`hasCheckedOut`), and check-in is blocked exactly in that same state —
so `NotCheckedIn → CheckedIn → CheckedOut` holds, but once both flags
are true the check-in transition becomes permitted again instead of
`CheckedOut` being terminal. -/
theorem c3_gate_transitions (st : AStatus) (today : Option TodayStatus)
    (hst : st ≠ AStatus.success) :
    (checkOutDisabled st today = false ↔
      hasCheckedInB today = true ∧ hasCheckedOutB today = false) ∧
    (checkInDisabled st today = false ↔
      ¬ (hasCheckedInB today = true ∧ hasCheckedOutB today = false)) := by
  cases st with
  | success => exact absurd rfl hst
  | idle =>
    rcases today with _ | ⟨ci, co⟩
    · exact ⟨by decide, by decide⟩
    · cases ci <;> cases co <;> exact ⟨by decide, by decide⟩
  | error =>
    rcases today with _ | ⟨ci, co⟩
    · exact ⟨by decide, by decide⟩
    · cases ci <;> cases co <;> exact ⟨by decide, by decide⟩

/-- C3 (witness): the amended statement in the checked-in state. -/
theorem c3_gate_transitions_witness :
    (AStatus.idle ≠ AStatus.success) ∧
    ((checkOutDisabled AStatus.idle (some ⟨true, false⟩) = false ↔
      hasCheckedInB (some ⟨true, false⟩) = true ∧
      hasCheckedOutB (some ⟨true, false⟩) = false) ∧
    (checkInDisabled AStatus.idle (some ⟨true, false⟩) = false ↔
      ¬ (hasCheckedInB (some ⟨true, false⟩) = true ∧
         hasCheckedOutB (some ⟨true, false⟩) = false))) :=
  ⟨by decide, c3_gate_transitions AStatus.idle (some ⟨true, false⟩) (by decide)⟩

/-- C2 (counterexample): two check-in invocations from the same pending
state — as happens when the button is clicked twice before the first
`await` resolves — issue two external API calls; neither is rejected,
and no `AlreadyInProgress` outcome exists in the transition's type. -/
theorem c2_reentrant_calls_double_submit :
    ((handleAbsensi "t1" (ApiOutcome.ok true)
        ⟨some ("A1", "Gate"), some (1, 2), some ⟨false, false⟩,
         AStatus.idle, none⟩).2 ++
     (handleAbsensi "t2" (ApiOutcome.ok true)
        ⟨some ("A1", "Gate"), some (1, 2), some ⟨false, false⟩,
         AStatus.idle, none⟩).2)
      = [ApiCall.checkIn "A1" 1 2, ApiCall.checkIn "A1" 1 2] := by decide

/-- C10: whenever `handleAbsensi`'s preconditions hold (a nearest asset
with a non-empty id and a location), the `lastAttendance` record is
written on both the success and the failure outcome of the API response
— the locally persisted record changes even when the backend rejected
the action. -/
theorem c10_last_attendance_written_on_both_outcomes
    (now : String) (success : Bool) (s : CardState) (id name : String)
    (lat lng : ℚ) (hna : s.nearestAsset = some (id, name))
    (hloc : s.location = some (lat, lng)) (hid : id ≠ "") :
    (handleAbsensi now (ApiOutcome.ok success) s).1.lastAttendance
      = some ⟨now, id, name, lat, lng⟩ := by
  simp only [handleAbsensi, hna, hloc]
  rw [if_neg hid]

/-- C10 (witness): the record is written even on a failed check-in
response. -/
theorem c10_last_attendance_written_witness :
    (handleAbsensi "2024-01-01T00:00:00Z" (ApiOutcome.ok false)
        ⟨some ("A1", "Gate"), some (1, 2), some ⟨false, false⟩,
         AStatus.idle, none⟩).1.lastAttendance
      = some ⟨"2024-01-01T00:00:00Z", "A1", "Gate", 1, 2⟩ :=
  c10_last_attendance_written_on_both_outcomes "2024-01-01T00:00:00Z" false
    ⟨some ("A1", "Gate"), some (1, 2), some ⟨false, false⟩, AStatus.idle, none⟩
    "A1" "Gate" 1 2 rfl rfl (by decide)

/-! ## Complete-task dialog: scan-code gate, submit gating, radius config -/

/-- The task fields the dialog's gate reads. -/
structure TaskInfo where
  is_scan : Bool
  is_need_validation : Bool
  scan_code : Option String
deriving DecidableEq

/-- JavaScript `String.prototype.trim()`: drop whitespace characters
from both ends of the string (structural, so it evaluates in proofs). -/
def jsTrim (s : String) : String :=
  ⟨((s.data.dropWhile Char.isWhitespace).reverse.dropWhile
      Char.isWhitespace).reverse⟩

/-- The scan-code comparison of `onScanSuccess`:
`taskScanCode && scannedCodeValue.trim() === taskScanCode` where
`taskScanCode = task?.scan_code?.trim()`.  Trim-only normalisation on
both sides and a case-sensitive string comparison; a missing or empty
expected code makes the whole conjunction falsy. -/
def isValidScanCode (scan_code : Option String) (scannedCodeValue : String) : Bool :=
  match scan_code with
  | none => false
  | some e => decide (jsTrim e ≠ "") && decide (jsTrim scannedCodeValue = jsTrim e)

/-- The scan-code rejection in `handleSubmit`:
`taskScanCode && scannedCodeValue.trim() !== taskScanCode` aborts the
submission (`ScanCodeMismatch`); with a missing or empty expected code no
mismatch is raised there. -/
def handleSubmitScanMismatch (scan_code : Option String)
    (scannedCodeValue : String) : Bool :=
  match scan_code with
  | none => false
  | some e => decide (jsTrim e ≠ "") && decide (jsTrim scannedCodeValue ≠ jsTrim e)

/-- The submit button's `disabled` predicate (the IIFE on the dialog's
submit button), over the dialog state it reads: pending submission or
location check; for scan tasks a missing scan code, a failed scan-code
validation, or — when the QR carried a location — a failed or pending
location validation; for validation tasks the role-dependent photo
requirements (`keamanan`/`security`: exactly the after photo;
`kebersihan`/`cleaning`: both photos; otherwise at least one). -/
def submitDisabled (task : TaskInfo) (userRoleName : Option String)
    (isSubmitting isCheckingLocation : Bool) (scanCode : String)
    (isScanCodeValid : Option Bool) (qrLocation : Option (ℚ × ℚ))
    (isLocationValid : Option Bool) (fileBefore fileAfter : Bool) : Bool :=
  let roleLower := userRoleName.map String.toLower
  if isSubmitting || isCheckingLocation then true
  else if task.is_scan && decide (jsTrim scanCode = "") then true
  else if task.is_scan && decide (isScanCodeValid = some false) then true
  else if task.is_scan && qrLocation.isSome &&
      (decide (isLocationValid = some false) || decide (isLocationValid = none))
    then true
  else if task.is_need_validation then
    if decide (roleLower = some "keamanan") || decide (roleLower = some "security")
    then !fileAfter || fileBefore
    else if decide (roleLower = some "kebersihan") ||
        decide (roleLower = some "cleaning")
    then !fileBefore || !fileAfter
    else !fileBefore && !fileAfter
  else false

/-- C2 (amended): the complete-task dialog does gate re-entrant
submission — while a submission or location check is pending the submit
button's disabled predicate is true regardless of every other input —
but the attendance path has no busy flag: every `handleAbsensi`
invocation whose preconditions hold issues exactly one external API
call and never rejects, so two calls from the same pending state issue
two calls. -/
theorem c2_pending_gating_submit_only :
    (∀ (task : TaskInfo) (userRoleName : Option String)
        (isCheckingLocation : Bool) (scanCode : String)
        (isScanCodeValid : Option Bool) (qrLocation : Option (ℚ × ℚ))
        (isLocationValid : Option Bool) (fileBefore fileAfter : Bool),
      submitDisabled task userRoleName true isCheckingLocation scanCode
        isScanCodeValid qrLocation isLocationValid fileBefore fileAfter = true) ∧
    (∀ (now : String) (outcome : ApiOutcome) (s : CardState)
        (id name : String) (lat lng : ℚ),
      s.nearestAsset = some (id, name) → s.location = some (lat, lng) →
      id ≠ "" → (handleAbsensi now outcome s).2.length = 1) := by
  constructor
  · intro task userRoleName isCheckingLocation scanCode isScanCodeValid
      qrLocation isLocationValid fileBefore fileAfter
    rfl
  · intro now outcome s id name lat lng hna hloc hid
    simp only [handleAbsensi, hna, hloc]
    rw [if_neg hid]
    cases outcome <;> rfl

/-- C2 (witness): the pending submit button is disabled at a concrete
dialog state, and a concrete `handleAbsensi` invocation issues exactly
one call. -/
theorem c2_pending_gating_submit_only_witness :
    submitDisabled ⟨true, true, some "ABC123"⟩ (some "keamanan") true false ""
      none none none false false = true ∧
    (handleAbsensi "t" (ApiOutcome.ok true)
        ⟨some ("A1", "Gate"), some (1, 2), some ⟨false, false⟩,
         AStatus.idle, none⟩).2.length = 1 :=
  ⟨c2_pending_gating_submit_only.1 ⟨true, true, some "ABC123"⟩
      (some "keamanan") false "" none none none false false,
   c2_pending_gating_submit_only.2 "t" (ApiOutcome.ok true)
      ⟨some ("A1", "Gate"), some (1, 2), some ⟨false, false⟩,
       AStatus.idle, none⟩
      "A1" "Gate" 1 2 rfl rfl (by decide)⟩

/-- C8: for a non-empty (after trimming) expected code, the scan gate
accepts exactly when the observed code equals the expected code after
trimming both, with no case folding: `onScanSuccess` marks the scan
valid iff the trimmed strings are equal, and `handleSubmit` raises the
mismatch iff they differ. -/
theorem c8_scan_code_trimmed_case_sensitive (e observed : String)
    (hne : jsTrim e ≠ "") :
    (isValidScanCode (some e) observed = true ↔ jsTrim observed = jsTrim e) ∧
    (handleSubmitScanMismatch (some e) observed = true ↔
      jsTrim observed ≠ jsTrim e) := by
  constructor
  · simp [isValidScanCode, hne]
  · simp [handleSubmitScanMismatch, hne]

/-- C8 (witness): expected "ABC123" against observed "abc123 " — after
trim-only normalisation the comparison is case sensitive, so the scan is
invalid and `handleSubmit` raises the mismatch. -/
theorem c8_scan_code_trimmed_case_sensitive_witness :
    (jsTrim "ABC123" ≠ "") ∧
    ((isValidScanCode (some "ABC123") "abc123 " = true ↔
      jsTrim "abc123 " = jsTrim "ABC123") ∧
     (handleSubmitScanMismatch (some "ABC123") "abc123 " = true ↔
      jsTrim "abc123 " ≠ jsTrim "ABC123")) :=
  ⟨by decide, c8_scan_code_trimmed_case_sensitive "ABC123" "abc123 " (by decide)⟩

/-- `loadRadiusDistance`'s adoption rule (identical in the attendance
card and the dialog): `parseFloat` the setting value and adopt it only
when `!isNaN(value) && value > 0`; otherwise keep the previous radius.
`none` models a missing setting or falsy raw value (no parse happens);
`some value` is the `parseFloat` result, which as a JavaScript number
can be NaN (non-numeric input) or +Infinity (input such as "Infinity"
or "1e999") — both representable in `JSNum`.  `prev` is the state's
current radius (default 5). -/
def loadRadiusDistance (prev : JSNum) (parsed : Option JSNum) : JSNum :=
  match parsed with
  | none => prev
  | some value =>
      if !jsIsNaN value && jsLt (.fin 0) value then value else prev

/-- C9 (counterexample): a positive non-finite parse is adopted — with
`parseFloat("Infinity")` (or `"1e999"`) the guard `!isNaN(value) &&
value > 0` passes, so the radius becomes Infinity instead of the
previous valid policy being retained. -/
theorem c9_positive_infinite_parse_adopted :
    loadRadiusDistance (JSNum.fin 5) (some JSNum.posInf) = JSNum.posInf ∧
    loadRadiusDistance (JSNum.fin 5) (some JSNum.posInf) ≠ JSNum.fin 5 := by
  decide

/-- C9 (amended): a missing value, a NaN (non-numeric) parse or a
non-positive parse is never adopted — the previous radius is retained
unchanged — and the adopted radius is always either the previous one or
a JS-positive value (so it never silently becomes zero); but a positive
infinite parse does pass the guard and is adopted as the radius. -/
theorem c9_radius_guard_keeps_previous_except_infinite :
    (∀ (prev : JSNum) (parsed : Option JSNum),
        (parsed = none ∨ parsed = some JSNum.nan ∨
         ∃ v, parsed = some v ∧ jsLt (JSNum.fin 0) v = false) →
        loadRadiusDistance prev parsed = prev) ∧
    (∀ (prev : JSNum) (parsed : Option JSNum),
        loadRadiusDistance prev parsed = prev ∨
        jsLt (JSNum.fin 0) (loadRadiusDistance prev parsed) = true) ∧
    (∀ prev : JSNum,
        loadRadiusDistance prev (some JSNum.posInf) = JSNum.posInf) := by
  refine ⟨?_, ?_, fun prev => rfl⟩
  · intro prev parsed hbad
    rcases hbad with h | h | ⟨v, hv, hlt⟩
    · rw [h]; rfl
    · rw [h]; rfl
    · rw [hv]
      simp only [loadRadiusDistance, hlt, Bool.and_false, Bool.false_eq_true,
        if_false]
  · intro prev parsed
    rcases parsed with _ | v
    · exact Or.inl rfl
    · by_cases h : (!jsIsNaN v && jsLt (.fin 0) v) = true
      · right
        simp only [loadRadiusDistance, if_pos h]
        exact (Bool.and_eq_true _ _ |>.mp h).2
      · left
        simp only [loadRadiusDistance, if_neg h]

/-- C9 (witness): `updateAllowedRadius(-5)` and `(0)` both leave the
prior radius 5 unchanged, while an infinite parse is adopted. -/
theorem c9_radius_guard_witness :
    loadRadiusDistance (JSNum.fin 5) (some (JSNum.fin (-5))) = JSNum.fin 5 ∧
    loadRadiusDistance (JSNum.fin 5) (some (JSNum.fin 0)) = JSNum.fin 5 ∧
    loadRadiusDistance (JSNum.fin 5) (some JSNum.posInf) = JSNum.posInf :=
  ⟨c9_radius_guard_keeps_previous_except_infinite.1 (JSNum.fin 5)
      (some (JSNum.fin (-5))) (Or.inr (Or.inr ⟨JSNum.fin (-5), rfl, by decide⟩)),
   c9_radius_guard_keeps_previous_except_infinite.1 (JSNum.fin 5)
      (some (JSNum.fin 0)) (Or.inr (Or.inr ⟨JSNum.fin 0, rfl, by decide⟩)),
   c9_radius_guard_keeps_previous_except_infinite.2.2 (JSNum.fin 5)⟩
